import Mathlib

/-!
# BIP-353 resolver — verification of the core string pipeline

A shallow embedding of the core of the `bip353` crate (`src/lib.rs`):

* `PaymentInstruction.from_uri` — classification of a `bitcoin:` URI,
* `Resolver.parse_address`     — parsing of a human-readable `user@domain` address,
* `Resolver.resolve`           — the post-lookup filtering/aggregation of TXT records.

Rust strings are modelled as `List Char` (sequences of Unicode scalar values).
Byte-level facts (Rust `str::len`, the `uri[8..]` byte slice) are handled through
an explicit UTF-8 size function `utf8Size`/`byteLength`, so that claims about byte
indices and character boundaries can be stated faithfully.

Rust's `str::to_lowercase` performs full Unicode lowercasing.  It is modelled here
by the per-character ASCII lowering `asciiToLower`, which agrees with it on every
string as far as the `"bitcoin:"` prefix test is concerned: the only Unicode
characters whose lowercase form contains one of the ASCII characters
`b i t c o n :` are the ASCII letters themselves and U+0130 (İ), and İ lowercases
to the two-character sequence `i`, U+0307, which can never complete a match of the
eight-character pattern `bitcoin:` (U+0307 is not in the pattern).  Likewise the
only non-ASCII character lowercasing to any ASCII character at all is U+212A (K),
whose image `k` does not occur in the pattern.
-/

namespace Bip353

/-- A Rust string, as its sequence of Unicode scalar values. -/
abbrev Str := List Char

/-- The number of bytes of a character in UTF-8. -/
def utf8Size (c : Char) : Nat :=
  if c.toNat < 0x80 then 1
  else if c.toNat < 0x800 then 2
  else if c.toNat < 0x10000 then 3
  else 4

/-- Rust `str::len`: the length of a string in UTF-8 bytes. -/
def byteLength (s : Str) : Nat := (s.map utf8Size).sum

/-- Per-character ASCII lowercasing; see the header comment for why this is an
adequate model of Rust `str::to_lowercase` for the `"bitcoin:"` prefix test. -/
def asciiToLower (c : Char) : Char :=
  if 65 ≤ c.toNat ∧ c.toNat ≤ 90 then Char.ofNat (c.toNat + 32) else c

/-- `uri.to_lowercase()` (`src/lib.rs` line 60). -/
def toLowercase (s : Str) : Str := s.map asciiToLower

/-- `uri.to_lowercase().starts_with("bitcoin:")` (`src/lib.rs` line 60, and the
TXT-record filter at line 164). -/
def bitcoinSchemeCheck (s : Str) : Bool :=
  List.isPrefixOf "bitcoin:".data (toLowercase s)

/-- Rust `str::find(ch)` followed by the two byte slices around the found
character: `splitFirst sep s = some (before, after)` when `sep` occurs in `s`,
with `s = before ++ [sep] ++ after` and `sep ∉ before`; `none` otherwise.
Models `uri.find('?')` / `pair.find('=')` together with the slices
`&uri[i+1..]`, `&pair[..i]`, `&pair[i+1..]` (`src/lib.rs` lines 69–74). -/
def splitFirst (sep : Char) : Str → Option (Str × Str)
  | [] => none
  | c :: cs =>
    if c = sep then some ([], cs)
    else
      match splitFirst sep cs with
      | none => none
      | some (k, v) => some (c :: k, v)

/-- Rust `str::split(ch)`: splits on every occurrence of `sep`; adjacent
separators and separators at either end produce empty segments, and the empty
string yields the single segment `[]` (`query.split('&')` at line 71,
`addr.split('@')` at line 130 of `src/lib.rs`). -/
def splitAll (sep : Char) : Str → List Str
  | [] => [[]]
  | c :: cs =>
    match splitAll sep cs with
    | [] => [[c]]
    | h :: t => if c = sep then [] :: h :: t else (c :: h) :: t

/-- The four error kinds of `Bip353Error` (`src/lib.rs` lines 13–18). -/
inductive Bip353Error where
  | DnsError (msg : Str)
  | InvalidAddress (msg : Str)
  | InvalidRecord (msg : Str)
  | DnssecError (msg : Str)
deriving DecidableEq

/-- The `From<trust_dns_resolver::error::ResolveError>` conversion
(`src/lib.rs` lines 33–37): every collaborator failure becomes `DnsError`. -/
def fromResolveError (err : Str) : Bip353Error := .DnsError err

/-- `PaymentType` (`src/lib.rs` lines 41–46). -/
inductive PaymentType where
  | OnChain
  | Lightning
  | LightningOffer
  | Unknown
deriving DecidableEq

/-- The parameter `HashMap<String, String>`, modelled as an association list
with unique keys; `insertParam` gives it the map's overwrite-on-duplicate-key
behaviour. -/
abbrev ParamMap := List (Str × Str)

/-- `HashMap::insert`: replace the value if the key is present, append the
binding otherwise (`parameters.insert(key, value)` at line 75 of
`src/lib.rs`). -/
def insertParam (m : ParamMap) (k v : Str) : ParamMap :=
  match m with
  | [] => [(k, v)]
  | (k₀, v₀) :: rest =>
    if k₀ = k then (k, v) :: rest else (k₀, v₀) :: insertParam rest k v

/-- `HashMap::contains_key` (`src/lib.rs` lines 81 and 84). -/
def containsKey (m : ParamMap) (k : Str) : Bool :=
  m.any (fun p => p.1 = k)

/-- `HashMap::get` on the unique-keyed association list. -/
def getParam (m : ParamMap) (k : Str) : Option Str :=
  match m with
  | [] => none
  | (k₀, v) :: rest => if k₀ = k then some v else getParam rest k

/-- The body of the query-parameter loop of `from_uri` (`src/lib.rs` lines
72–76): split the chunk at its first `=` and insert the pair; a chunk lacking
`=` leaves the map unchanged. -/
def insertChunk (m : ParamMap) (pair : Str) : ParamMap :=
  match splitFirst '=' pair with
  | none => m
  | some (k, v) => insertParam m k v

/-- The query-parameter parsing of `from_uri` (`src/lib.rs` lines 68–78):
slice after the first `?`, split the query on `&`, run `insertChunk` over the
chunks starting from the empty map. -/
def parseParams (uri : Str) : ParamMap :=
  match splitFirst '?' uri with
  | none => []
  | some (_, query) => (splitAll '&' query).foldl insertChunk []

/-- `PaymentInstruction` (`src/lib.rs` lines 50–55). -/
structure PaymentInstruction where
  uri : Str
  payment_type : PaymentType
  is_reusable : Bool
  parameters : ParamMap
deriving DecidableEq

/-- `PaymentInstruction::from_uri` (`src/lib.rs` lines 59–99).  The byte slice
`uri[8..]` is modelled as `uri.drop 8`: it is only evaluated after the scheme
check has passed, which forces the first eight characters to be one-byte
characters (theorem `c10_slicing_safe` below), so byte offset 8 is the
boundary after exactly eight characters.  `uri.len() > 8` is the byte-length
comparison, kept as such via `byteLength`. -/
def PaymentInstruction.from_uri (uri : Str) : Except Bip353Error PaymentInstruction :=
  if bitcoinSchemeCheck uri = false then
    .error (.InvalidRecord "URI must start with bitcoin:".data)
  else
    let parameters := parseParams uri
    if containsKey parameters "lightning".data then
      .ok ⟨uri, .Lightning, false, parameters⟩
    else if containsKey parameters "lno".data then
      .ok ⟨uri, .LightningOffer, true, parameters⟩
    else if (uri.drop 8).contains '?' = false ∧ 8 < byteLength uri then
      .ok ⟨uri, .OnChain, true, parameters⟩
    else
      .ok ⟨uri, .Unknown, true, parameters⟩

/-- The set of code points with the Unicode `White_Space` property, which is
what Rust `str::trim` strips. -/
def rustIsWhitespace (c : Char) : Bool :=
  c.toNat = 0x9 ∨ c.toNat = 0xA ∨ c.toNat = 0xB ∨ c.toNat = 0xC ∨ c.toNat = 0xD ∨
  c.toNat = 0x20 ∨ c.toNat = 0x85 ∨ c.toNat = 0xA0 ∨ c.toNat = 0x1680 ∨
  (0x2000 ≤ c.toNat ∧ c.toNat ≤ 0x200A) ∨
  c.toNat = 0x2028 ∨ c.toNat = 0x2029 ∨ c.toNat = 0x202F ∨ c.toNat = 0x205F ∨
  c.toNat = 0x3000

/-- Rust `str::trim`: strip `White_Space` characters from both ends. -/
def trim (s : Str) : Str :=
  ((s.dropWhile rustIsWhitespace).reverse.dropWhile rustIsWhitespace).reverse

namespace Resolver

/-- `Resolver::parse_address` (`src/lib.rs` lines 123–143): trim, strip at most
one leading `₿` (`strip_prefix` removes the literal `"₿"` once or leaves the
string unchanged), split on `@`, require exactly two segments, trim each and
require both non-empty. -/
def parse_address (address : Str) : Except Bip353Error (Str × Str) :=
  let addr := trim address
  let addr := if List.isPrefixOf "₿".data addr then addr.drop "₿".data.length else addr
  match splitAll '@' addr with
  | [p₀, p₁] =>
    let user := trim p₀
    let domain := trim p₁
    if user = [] ∨ domain = [] then
      .error (.InvalidAddress "User and domain cannot be empty".data)
    else
      .ok (user, domain)
  | _ =>
    .error (.InvalidAddress "Address must be in format user@domain".data)

/-- One DNS TXT record: its ordered sequence of character-string segments,
each segment taken after the `String::from_utf8_lossy` decoding the source
applies (`src/lib.rs` lines 157–160). -/
abbrev TxtRecord := List Str

/-- The filtering loop of `Resolver::resolve` (`src/lib.rs` lines 154–167):
each record's segments are joined in order (`txt_data.join("")`) and the
concatenation is kept iff it passes the lowercased `bitcoin:` scheme test. -/
def keptCandidates (records : List TxtRecord) : List Str :=
  (records.map (fun txt_data => txt_data.flatten)).filter bitcoinSchemeCheck

/-- `Resolver::resolve` after the DNS lookup (`src/lib.rs` lines 146–175).
The network call itself is the external collaborator; its outcome is the
argument: `.error e` models a failed `txt_lookup` (converted by the `?`
operator through `fromResolveError`), `.ok records` a successful one. -/
def resolve (lookupResult : Except Str (List TxtRecord)) :
    Except Bip353Error PaymentInstruction :=
  match lookupResult with
  | .error e => .error (fromResolveError e)
  | .ok records =>
    match keptCandidates records with
    | [] => .error (.InvalidRecord "No Bitcoin URI found".data)
    | [u] => PaymentInstruction.from_uri u
    | _ :: _ :: _ => .error (.InvalidRecord "Multiple Bitcoin URIs found".data)

end Resolver

/-! ## Spec-side definitions

Definitions written from the claims' wording, to be compared with the
source-side definitions above. -/

/-- C5's algorithm, written from the claim's wording: trim the input, strip at
most one leading Bitcoin glyph `₿` from the trimmed string, split on `@`, and
return the pair of whitespace-trimmed segments if there are exactly two and
both trimmed segments are non-empty; otherwise `InvalidAddress`. -/
def parse_address_claim (address : Str) : Except Bip353Error (Str × Str) :=
  let t := trim address
  let t := if t.head? = some '₿' then t.tail else t
  match splitAll '@' t with
  | [p₀, p₁] =>
    if trim p₀ ≠ [] ∧ trim p₁ ≠ [] then
      .ok (trim p₀, trim p₁)
    else
      .error (.InvalidAddress "User and domain cannot be empty".data)
  | _ =>
    .error (.InvalidAddress "Address must be in format user@domain".data)

/-- C6's duplicate-key rule, written from the claim's wording: the value
associated with a key is the value of the last query chunk that both contains
`=` and whose part before its first `=` equals the key — a later occurrence
overwrites an earlier one, and chunks lacking `=` are dropped. -/
def lastParamValue (chunks : List Str) (k : Str) : Option Str :=
  match chunks with
  | [] => none
  | ch :: rest =>
    match lastParamValue rest k with
    | some v => some v
    | none =>
      match splitFirst '=' ch with
      | none => none
      | some (k₀, v) => if k₀ = k then some v else none

/-! ## Result classifiers -/

/-- The result is a success. -/
def isOkResult {α : Type} : Except Bip353Error α → Bool
  | .ok _ => true
  | .error _ => false

/-- The result is an error of the `InvalidRecord` kind. -/
def isInvalidRecordResult {α : Type} : Except Bip353Error α → Bool
  | .error (.InvalidRecord _) => true
  | _ => false

/-- The error is of the `DnssecError` kind. -/
def errIsDnssec : Bip353Error → Bool
  | .DnssecError _ => true
  | _ => false

/-- The result is an error of the `DnssecError` kind. -/
def resultDnssec {α : Type} : Except Bip353Error α → Bool
  | .error e => errIsDnssec e
  | .ok _ => false

/-! ## Helper lemmas -/

theorem byteLength_cons (c : Char) (s : Str) :
    byteLength (c :: s) = utf8Size c + byteLength s := by
  simp [byteLength]

theorem byteLength_append (s t : Str) :
    byteLength (s ++ t) = byteLength s + byteLength t := by
  simp [byteLength]

theorem byteLength_of_all_one (s : Str) (h : ∀ c ∈ s, utf8Size c = 1) :
    byteLength s = s.length := by
  induction s with
  | nil => rfl
  | cons c cs ih =>
    rw [byteLength_cons, h c (List.mem_cons_self c cs),
      ih (fun x hx => h x (List.mem_cons_of_mem c hx))]
    simp [Nat.add_comm]

theorem asciiToLower_ascii_of_ascii {c : Char} (h : (asciiToLower c).toNat < 128) :
    c.toNat < 128 := by
  unfold asciiToLower at h
  split at h
  · next hcond => omega
  · exact h

/-- A passing scheme check forces at least eight characters, the first eight
of which are one-byte characters: byte offset 8 is exactly the boundary after
the eighth character. -/
theorem schemeCheck_first8 (u : Str) (h : bitcoinSchemeCheck u = true) :
    8 ≤ u.length ∧ ∀ c ∈ u.take 8, utf8Size c = 1 := by
  unfold bitcoinSchemeCheck toLowercase at h
  have hpre := List.isPrefixOf_iff_prefix.mp h
  obtain ⟨t, ht⟩ := hpre
  have hmap : "bitcoin:".data ++ t = List.map asciiToLower u := ht
  obtain ⟨u₁, u₂, hu, h₁, h₂⟩ := List.append_eq_map_iff.mp hmap
  have hlen : u₁.length = 8 := by
    have hl := congrArg List.length h₁
    simpa using hl
  subst hu
  constructor
  · simp [List.length_append, hlen]
  · intro c hc
    have hc1 : c ∈ u₁ := by
      rw [← hlen, List.take_left] at hc
      exact hc
    have hlow : asciiToLower c ∈ "bitcoin:".data := by
      rw [← h₁]
      exact List.mem_map_of_mem _ hc1
    have hall : ∀ d ∈ "bitcoin:".data, d.toNat < 128 := by decide
    have hlt : c.toNat < 128 := asciiToLower_ascii_of_ascii (hall _ hlow)
    unfold utf8Size
    rw [if_pos hlt]

theorem schemeCheck_byteFacts (u : Str) (h : bitcoinSchemeCheck u = true) :
    byteLength (u.take 8) = 8 ∧ 8 ≤ byteLength u ∧ 8 ≤ u.length := by
  obtain ⟨hlen, hone⟩ := schemeCheck_first8 u h
  have htake : byteLength (u.take 8) = (u.take 8).length :=
    byteLength_of_all_one _ hone
  have hlen8 : (u.take 8).length = 8 := by
    simp [List.length_take]
    omega
  have hsum := byteLength_append (u.take 8) (u.drop 8)
  rw [List.take_append_drop] at hsum
  refine ⟨htake.trans hlen8, ?_, hlen⟩
  omega

/-- A failing scheme check gives the `InvalidRecord` error. -/
theorem from_uri_scheme_fail (u : Str) (h : bitcoinSchemeCheck u = false) :
    PaymentInstruction.from_uri u =
      .error (.InvalidRecord "URI must start with bitcoin:".data) := by
  simp [PaymentInstruction.from_uri, h]

/-- A passing scheme check gives a success: `from_uri` has no other failure
condition. -/
theorem from_uri_ok_of_scheme (u : Str) (h : bitcoinSchemeCheck u = true) :
    isOkResult (PaymentInstruction.from_uri u) = true := by
  simp only [PaymentInstruction.from_uri, h]
  split
  · simp_all
  · split
    · rfl
    · split
      · rfl
      · split
        · rfl
        · rfl

/-- Every `from_uri` result is a success or an `InvalidRecord` error. -/
theorem from_uri_shape (u : Str) :
    (∃ pi, PaymentInstruction.from_uri u = .ok pi) ∨
    (∃ m, PaymentInstruction.from_uri u = .error (.InvalidRecord m)) := by
  simp only [PaymentInstruction.from_uri]
  split
  · exact .inr ⟨_, rfl⟩
  · split
    · exact .inl ⟨_, rfl⟩
    · split
      · exact .inl ⟨_, rfl⟩
      · split
        · exact .inl ⟨_, rfl⟩
        · exact .inl ⟨_, rfl⟩

/-- Every `parse_address` result is a success or an `InvalidAddress` error. -/
theorem parse_address_shape (addr : Str) :
    (∃ p, Resolver.parse_address addr = .ok p) ∨
    (∃ m, Resolver.parse_address addr = .error (.InvalidAddress m)) := by
  simp only [Resolver.parse_address]
  split
  · split
    · exact .inr ⟨_, rfl⟩
    · exact .inl ⟨_, rfl⟩
  · exact .inr ⟨_, rfl⟩

theorem getParam_insertParam (m : ParamMap) (k v q : Str) :
    getParam (insertParam m k v) q = if k = q then some v else getParam m q := by
  induction m with
  | nil => simp [insertParam, getParam]
  | cons p rest ih =>
    obtain ⟨k₀, v₀⟩ := p
    unfold insertParam
    by_cases h₀ : k₀ = k
    · subst h₀
      rw [if_pos rfl]
      by_cases hq : k₀ = q <;> simp [getParam, hq]
    · rw [if_neg h₀]
      by_cases hq : k₀ = q <;> by_cases hkq : k = q <;>
        simp_all [getParam]

theorem getParam_foldl_insertChunk (chunks : List Str) (m : ParamMap) (k : Str) :
    getParam (chunks.foldl insertChunk m) k =
      match lastParamValue chunks k with
      | some v => some v
      | none => getParam m k := by
  induction chunks generalizing m with
  | nil => simp [lastParamValue]
  | cons ch rest ih =>
    rw [List.foldl_cons, ih]
    cases hrest : lastParamValue rest k with
    | some v => simp [lastParamValue, hrest]
    | none =>
      simp only [lastParamValue, hrest]
      unfold insertChunk
      cases hsp : splitFirst '=' ch with
      | none => simp
      | some kv =>
        obtain ⟨k₀, v⟩ := kv
        simp only
        rw [getParam_insertParam]
        by_cases hk : k₀ = k <;> simp [hk]

theorem splitFirst_eq_none (sep : Char) (s : Str) (h : ¬ sep ∈ s) :
    splitFirst sep s = none := by
  induction s with
  | nil => rfl
  | cons c cs ih =>
    rw [List.mem_cons] at h
    push_neg at h
    unfold splitFirst
    rw [if_neg (fun hc => h.1 hc.symm), ih h.2]

/-- Specification of `splitFirst`: it splits exactly at the first occurrence
of the separator. -/
theorem splitFirst_spec (sep : Char) (s pre post : Str)
    (h : splitFirst sep s = some (pre, post)) :
    s = pre ++ sep :: post ∧ ¬ sep ∈ pre := by
  induction s generalizing pre post with
  | nil => simp [splitFirst] at h
  | cons c cs ih =>
    unfold splitFirst at h
    by_cases hc : c = sep
    · rw [if_pos hc] at h
      cases h
      simp [hc]
    · rw [if_neg hc] at h
      cases hsp : splitFirst sep cs with
      | none => rw [hsp] at h; cases h
      | some kv =>
        obtain ⟨k, v⟩ := kv
        rw [hsp] at h
        simp only [Option.some.injEq, Prod.mk.injEq] at h
        obtain ⟨hpre, hpost⟩ := h
        subst hpre
        subst hpost
        obtain ⟨h1, h2⟩ := ih k v hsp
        constructor
        · rw [List.cons_append, ← h1]
        · rw [List.mem_cons]
          push_neg
          exact ⟨fun hh => hc hh.symm, h2⟩

/-! ## Claim theorems -/

/-- C1: for a URI accepted by `from_uri` whose parameters contain neither
`lightning` nor `lno`, a non-empty portion between the scheme prefix and the
first `?` is claimed to give `OnChain` with `is_reusable = true`.  The code
disagrees: its on-chain condition is `!uri[8..].contains('?')`, so any URI
with a query string is classified `Unknown` even when the pre-query portion
is non-empty.  At the repository's own test input
`bitcoin:bc1qw508d6qejxtdg4y5r3zarvary0c5xw7kv8f3t4?amount=0.01`
(which `tests/uri_parsing.rs`, `test_onchain_addresses`, asserts to be
`OnChain`) the portion before the `?` is the non-empty address, the
parameters contain only `amount`, and yet the result is `Unknown`: the code
contradicts its own test, so the claim is right and the code is wrong. -/
theorem c1_onchain_with_query_code_bug :
    PaymentInstruction.from_uri
        "bitcoin:bc1qw508d6qejxtdg4y5r3zarvary0c5xw7kv8f3t4?amount=0.01".data =
      .ok ⟨"bitcoin:bc1qw508d6qejxtdg4y5r3zarvary0c5xw7kv8f3t4?amount=0.01".data,
        .Unknown, true, [("amount".data, "0.01".data)]⟩ ∧
    (splitFirst '?'
        "bitcoin:bc1qw508d6qejxtdg4y5r3zarvary0c5xw7kv8f3t4?amount=0.01".data).map
        (fun p => p.1.drop 8) =
      some "bc1qw508d6qejxtdg4y5r3zarvary0c5xw7kv8f3t4".data :=
  ⟨rfl, rfl⟩

/-- C2 counterexample: the claim keeps a record's concatenation iff its
whitespace-trimmed value begins case-insensitively with `bitcoin:`; the code
never trims before the test.  For the single record whose concatenation is
`" bitcoin:x"`, the trimmed value passes the test (so the claim says it is
kept, making it the sole candidate), but the code keeps nothing and `resolve`
fails with `InvalidRecord`. -/
theorem c2_trimmed_filter_counterexample :
    bitcoinSchemeCheck (trim (List.flatten [" bitcoin:x".data])) = true ∧
    Resolver.keptCandidates [[" bitcoin:x".data]] = [] ∧
    Resolver.resolve (.ok [[" bitcoin:x".data]]) =
      .error (.InvalidRecord "No Bitcoin URI found".data) :=
  ⟨rfl, rfl, rfl⟩

/-- C2 amended: a string is a candidate iff it is the in-order concatenation
of the segments of one of the records and it itself (untrimmed) begins
case-insensitively with `bitcoin:`; segments are never candidates on their
own. -/
theorem c2_candidates_amended (records : List Resolver.TxtRecord) (c : Str) :
    c ∈ Resolver.keptCandidates records ↔
      ((∃ r ∈ records, c = r.flatten) ∧ bitcoinSchemeCheck c = true) := by
  unfold Resolver.keptCandidates
  rw [List.mem_filter, List.mem_map]
  constructor
  · rintro ⟨⟨r, hr, rfl⟩, hc⟩
    exact ⟨⟨r, hr, rfl⟩, hc⟩
  · rintro ⟨⟨r, hr, rfl⟩, hc⟩
    exact ⟨⟨r, hr, rfl⟩, hc⟩

/-- C2 amended, applied: a two-segment record is concatenated in order and
kept as a single candidate. -/
theorem c2_candidates_amended_witness :
    "bitcoin:a".data ∈ Resolver.keptCandidates [["bitcoin:".data, "a".data]] :=
  (c2_candidates_amended [["bitcoin:".data, "a".data]] "bitcoin:a".data).mpr
    ⟨⟨["bitcoin:".data, "a".data], by simp, by rfl⟩, rfl⟩

/-- C3: aggregation over the kept candidates — zero gives `InvalidRecord`,
two or more give `InvalidRecord`, and exactly one is forwarded verbatim to
`from_uri`, whose result is returned. -/
theorem c3_aggregation (records : List Resolver.TxtRecord) :
    (Resolver.keptCandidates records = [] →
      Resolver.resolve (.ok records) =
        .error (.InvalidRecord "No Bitcoin URI found".data)) ∧
    (∀ c, Resolver.keptCandidates records = [c] →
      Resolver.resolve (.ok records) = PaymentInstruction.from_uri c) ∧
    (∀ c₁ c₂ cs, Resolver.keptCandidates records = c₁ :: c₂ :: cs →
      Resolver.resolve (.ok records) =
        .error (.InvalidRecord "Multiple Bitcoin URIs found".data)) := by
  refine ⟨fun h => ?_, fun c h => ?_, fun c₁ c₂ cs h => ?_⟩ <;>
    simp [Resolver.resolve, h]

/-- C3, applied: an empty record set resolves to `InvalidRecord`. -/
theorem c3_aggregation_witness :
    Resolver.resolve (.ok []) =
      .error (.InvalidRecord "No Bitcoin URI found".data) :=
  (c3_aggregation []).1 rfl

/-- C4: when the parsed parameters contain the exact-lowercase key
`lightning`, the instruction is `Lightning` with `is_reusable = false`,
regardless of an `lno` key or a non-empty path. -/
theorem c4_lightning_precedence (uri : Str) (pi : PaymentInstruction)
    (hok : PaymentInstruction.from_uri uri = .ok pi)
    (hl : containsKey pi.parameters "lightning".data = true) :
    pi.payment_type = PaymentType.Lightning ∧ pi.is_reusable = false := by
  simp only [PaymentInstruction.from_uri] at hok
  split at hok
  · exact absurd hok (by simp)
  · split at hok
    · obtain rfl : _ = pi := by injection hok
      exact ⟨rfl, rfl⟩
    · split at hok
      · obtain rfl : _ = pi := by injection hok
        simp_all
      · split at hok
        · obtain rfl : _ = pi := by injection hok
          simp_all
        · obtain rfl : _ = pi := by injection hok
          simp_all

/-- C4, applied at a URI carrying both `lno` and `lightning` and a non-empty
path: `lightning` still wins. -/
theorem c4_lightning_precedence_witness :
    (⟨"bitcoin:a?lno=x&lightning=y".data, PaymentType.Lightning, false,
        [("lno".data, "x".data), ("lightning".data, "y".data)]⟩ :
      PaymentInstruction).payment_type = PaymentType.Lightning ∧
    (⟨"bitcoin:a?lno=x&lightning=y".data, PaymentType.Lightning, false,
        [("lno".data, "x".data), ("lightning".data, "y".data)]⟩ :
      PaymentInstruction).is_reusable = false :=
  c4_lightning_precedence "bitcoin:a?lno=x&lightning=y".data _ rfl rfl

/-- C5: `parse_address` trims the input, strips at most one leading Bitcoin
glyph `₿`, splits on `@`, and returns the pair of trimmed segments exactly
when there are two segments and both trimmed segments are non-empty,
`InvalidAddress` otherwise — it coincides with the algorithm transcribed from
the claim's wording (`parse_address_claim`). -/
theorem c5_parse_address_matches_claim (address : Str) :
    Resolver.parse_address address = parse_address_claim address := by
  simp only [Resolver.parse_address, parse_address_claim]
  have hdata : "₿".data = ['₿'] := rfl
  have hstrip :
      (if List.isPrefixOf "₿".data (trim address)
        then (trim address).drop "₿".data.length else trim address) =
      (if (trim address).head? = some '₿' then (trim address).tail
        else trim address) := by
    rw [hdata]
    cases htrim : trim address with
    | nil => simp [List.isPrefixOf]
    | cons c rest =>
      by_cases hc : c = '₿'
      · subst hc
        simp [List.isPrefixOf]
      · have hc' : ¬ '₿' = c := fun h => hc h.symm
        simp [List.isPrefixOf, hc', hc]
  rw [hstrip]
  rcases hsplit : splitAll '@'
      (if (trim address).head? = some '₿' then (trim address).tail
        else trim address) with _ | ⟨p₀, _ | ⟨p₁, _ | ⟨p₂, ps⟩⟩⟩
  · rfl
  · rfl
  · by_cases h₀ : trim p₀ = [] <;> by_cases h₁ : trim p₁ = [] <;>
      simp [h₀, h₁]
  · rfl

/-- C6: the parameters come from the substring after the first `?` (nothing
precedes a `?` in `pre`), split on `&`; each chunk is split at its first `=`
into a verbatim key and value, chunks lacking `=` are dropped without error,
a later occurrence of a key overwrites an earlier one, and a URI without `?`
has an empty map. -/
theorem c6_parameter_parsing (uri : Str) :
    ((¬ '?' ∈ uri) → parseParams uri = []) ∧
    (∀ pre query, splitFirst '?' uri = some (pre, query) →
      uri = pre ++ '?' :: query ∧ (¬ '?' ∈ pre) ∧
      ∀ k, getParam (parseParams uri) k = lastParamValue (splitAll '&' query) k) := by
  constructor
  · intro h
    simp [parseParams, splitFirst_eq_none '?' uri h]
  · intro pre query h
    obtain ⟨h1, h2⟩ := splitFirst_spec '?' uri pre query h
    refine ⟨h1, h2, fun k => ?_⟩
    simp only [parseParams, h]
    rw [getParam_foldl_insertChunk]
    cases lastParamValue (splitAll '&' query) k <;> simp [getParam]

/-- C6, applied: in `bitcoin:?a=1&a=2` the lookup of `a` follows the
last-occurrence rule. -/
theorem c6_parameter_parsing_witness :
    getParam (parseParams "bitcoin:?a=1&a=2".data) "a".data =
      lastParamValue (splitAll '&' "a=1&a=2".data) "a".data :=
  ((c6_parameter_parsing "bitcoin:?a=1&a=2".data).2 "bitcoin:".data
    "a=1&a=2".data rfl).2.2 "a".data

/-- C7: on success the `uri` field is exactly the input string. -/
theorem c7_uri_roundtrip (u : Str) (pi : PaymentInstruction)
    (h : PaymentInstruction.from_uri u = .ok pi) : pi.uri = u := by
  simp only [PaymentInstruction.from_uri] at h
  split at h
  · exact absurd h (by simp)
  · split at h
    · obtain rfl : _ = pi := by injection h
      rfl
    · split at h
      · obtain rfl : _ = pi := by injection h
        rfl
      · split at h <;>
        · obtain rfl : _ = pi := by injection h
          rfl

/-- C7, applied at `bitcoin:`. -/
theorem c7_uri_roundtrip_witness :
    (⟨"bitcoin:".data, PaymentType.Unknown, true, []⟩ :
      PaymentInstruction).uri = "bitcoin:".data :=
  c7_uri_roundtrip "bitcoin:".data _ rfl

/-- C8: `from_uri` fails with `InvalidRecord` exactly when the lowercased
input does not start with `bitcoin:`, and always succeeds when it does — the
scheme test is its only failure condition. -/
theorem c8_scheme_gate (u : Str) :
    (isInvalidRecordResult (PaymentInstruction.from_uri u) = true ↔
      bitcoinSchemeCheck u = false) ∧
    (bitcoinSchemeCheck u = true →
      isOkResult (PaymentInstruction.from_uri u) = true) := by
  cases hb : bitcoinSchemeCheck u with
  | false =>
    rw [from_uri_scheme_fail u hb]
    simp [isInvalidRecordResult, hb]
  | true =>
    have hok := from_uri_ok_of_scheme u hb
    rcases from_uri_shape u with ⟨pi, hp⟩ | ⟨m, hm⟩
    · rw [hp]
      simp [isInvalidRecordResult, isOkResult, hb]
    · rw [hm] at hok
      simp [isOkResult] at hok

/-- C8, applied: `lightning:x` is rejected as `InvalidRecord` and
`bitcoin:x` is accepted. -/
theorem c8_scheme_gate_witness :
    isInvalidRecordResult (PaymentInstruction.from_uri "lightning:x".data) = true ∧
    isOkResult (PaymentInstruction.from_uri "bitcoin:x".data) = true :=
  ⟨(c8_scheme_gate "lightning:x".data).1.mpr rfl,
    (c8_scheme_gate "bitcoin:x".data).2 rfl⟩

/-- C9: no core operation ever produces `DnssecError`: a collaborator failure
surfaces as `DnsError`, `parse_address` fails only with `InvalidAddress` and
`from_uri` only with `InvalidRecord`. -/
theorem c9_no_dnssec_error (addr u : Str)
    (lookupResult : Except Str (List Resolver.TxtRecord)) :
    resultDnssec (Resolver.parse_address addr) = false ∧
    resultDnssec (PaymentInstruction.from_uri u) = false ∧
    resultDnssec (Resolver.resolve lookupResult) = false ∧
    (∀ e, lookupResult = .error e →
      Resolver.resolve lookupResult = .error (.DnsError e)) ∧
    (∀ e, Resolver.parse_address addr = .error e → ∃ m, e = .InvalidAddress m) ∧
    (∀ e, PaymentInstruction.from_uri u = .error e → ∃ m, e = .InvalidRecord m) := by
  have hfu : ∀ v : Str, resultDnssec (PaymentInstruction.from_uri v) = false := by
    intro v
    rcases from_uri_shape v with ⟨p, hp⟩ | ⟨m, hm⟩ <;>
      simp [resultDnssec, errIsDnssec, *]
  have hpa : resultDnssec (Resolver.parse_address addr) = false := by
    rcases parse_address_shape addr with ⟨p, hp⟩ | ⟨m, hm⟩ <;>
      simp [resultDnssec, errIsDnssec, *]
  have hres : resultDnssec (Resolver.resolve lookupResult) = false := by
    cases lookupResult with
    | error e => rfl
    | ok records =>
      simp only [Resolver.resolve]
      cases hk : Resolver.keptCandidates records with
      | nil => rfl
      | cons c cs =>
        cases cs with
        | nil => exact hfu c
        | cons c₂ cs₂ => rfl
  refine ⟨hpa, hfu u, hres, ?_, ?_, ?_⟩
  · intro e he
    subst he
    rfl
  · intro e he
    rcases parse_address_shape addr with ⟨p, hp⟩ | ⟨m, hm⟩
    · rw [hp] at he
      cases he
    · rw [hm] at he
      injection he with he'
      exact ⟨m, he'.symm⟩
  · intro e he
    rcases from_uri_shape u with ⟨p, hp⟩ | ⟨m, hm⟩
    · rw [hp] at he
      cases he
    · rw [hm] at he
      injection he with he'
      exact ⟨m, he'.symm⟩

/-- C9, applied: a failed lookup surfaces as `DnsError`. -/
theorem c9_no_dnssec_error_witness :
    Resolver.resolve (.error "lookup failed".data) =
      .error (.DnsError "lookup failed".data) :=
  (c9_no_dnssec_error [] [] (.error "lookup failed".data)).2.2.2.1
    "lookup failed".data rfl

/-- C10: when the scheme check passes, the first eight characters occupy
exactly eight bytes (so byte offset 8 is a character boundary), the string is
at least eight bytes and eight characters long — the slices in `from_uri`
cannot panic — and `from_uri` returns successfully. -/
theorem c10_slicing_safe (u : Str) (h : bitcoinSchemeCheck u = true) :
    byteLength (u.take 8) = 8 ∧ 8 ≤ byteLength u ∧ 8 ≤ u.length ∧
    isOkResult (PaymentInstruction.from_uri u) = true := by
  obtain ⟨h1, h2, h3⟩ := schemeCheck_byteFacts u h
  exact ⟨h1, h2, h3, from_uri_ok_of_scheme u h⟩

/-- C10, applied at `bitcoin:x`. -/
theorem c10_slicing_safe_witness :
    byteLength ("bitcoin:x".data.take 8) = 8 ∧
    8 ≤ byteLength "bitcoin:x".data ∧
    8 ≤ "bitcoin:x".data.length ∧
    isOkResult (PaymentInstruction.from_uri "bitcoin:x".data) = true :=
  c10_slicing_safe "bitcoin:x".data rfl

end Bip353
